import Mathlib

/-!
Shallow embedding of the course-recommendation engine implemented in
`app.py` of RAloysia/course-recommendation-app.

The engine (the only algorithmic part of the repository) is:

* load-time normalisation of the catalog DataFrame `df`
  (`df['combined_features'] = df['combined_features'].fillna('').str.lower()`,
   `df['course_url'] = df['course_url'].fillna(FALLBACK_URL)`, with a
   missing `combined_features` column reported via `st.error` and the
   script aborting at the subsequent `fit_transform`);
* `vectorizer = TfidfVectorizer(stop_words='english')`,
  `tfidf_matrix = vectorizer.fit_transform(df['combined_features'])`;
* `model = NearestNeighbors(n_neighbors=5, metric='cosine').fit(tfidf_matrix)`;
* `recommend_courses(query, difficulty=None, min_rating=0)`:
  transform the query, `model.kneighbors`, project to eight display
  columns, then filter by `Difficulty == difficulty` (only when
  `difficulty` is truthy and not `'All'`) and by `Ratings >= min_rating`.

Modelling conventions.  pandas/NumPy floats are idealised as exact
rationals; missing values (NaN) are `Option.none`, with the pandas
comparison semantics `NaN >= x = False` and `NaN == s = False` made
explicit in the filter predicates.  The TF-IDF idf weights
`idf(t) = ln((1+N)/(1+df_t)) + 1` are irrational reals, so the engine is
parametrised by the idf table (any nonnegative rational table), and the
sklearn stop-word list (external library data, not part of the
repository) is likewise a parameter; none of the claims checked below
depends on the numeric idf values or the stop-list contents.  Cosine
distance is insensitive to the L2 row normalisation that sklearn
performs, so vectors are kept unnormalised and cosine distance is
defined directly; the distance comparisons the sorting step needs are
decidable over ℚ (cross-multiplied squares) and are proved equivalent to
the real cosine-distance order.  `model.kneighbors` raises
`ValueError: Expected n_neighbors <= n_samples_fit` when the fitted
corpus has fewer than `n_neighbors` rows; fallible steps therefore
return `Except String`.
-/

/-- Catalog row as it appears in the raw CSV: the two fields the loader
touches (`combined_features`, `course_url`) are nullable. -/
structure RawRow where
  title : String
  organization : String
  skills : String
  ratings : Option ℚ
  difficulty : Option String
  ctype : String
  duration : ℚ
  combined_features : Option String
  course_url : Option String
deriving DecidableEq, Repr

/-- Catalog row after load-time normalisation: `combined_features` and
`course_url` are plain strings (never null). -/
structure Row where
  title : String
  organization : String
  skills : String
  ratings : Option ℚ
  difficulty : Option String
  ctype : String
  duration : ℚ
  combined_features : String
  course_url : String
deriving DecidableEq, Repr

/-- The eight display columns selected by
`df.iloc[indices[0]][['Title', 'Organization', 'Skills', 'Ratings',
'Difficulty', 'Type', 'Duration', 'course_url']]`. -/
structure CourseRec where
  title : String
  organization : String
  skills : String
  ratings : Option ℚ
  difficulty : Option String
  ctype : String
  duration : ℚ
  course_url : String
deriving DecidableEq, Repr

/-- Column projection performed by the `iloc[...][[...]]` step. -/
def project (r : Row) : CourseRec :=
  { title := r.title, organization := r.organization, skills := r.skills,
    ratings := r.ratings, difficulty := r.difficulty, ctype := r.ctype,
    duration := r.duration, course_url := r.course_url }

/-- Pythons `str.lower()` / the vectorizer's `lowercase=True`,
character-wise over the underlying character list. -/
def lowerStr (s : String) : String := String.mk (s.data.map Char.toLower)

/-- Fallback URL substituted for missing `course_url` values (line 24 of
`app.py`). -/
def fallbackUrl : String := "https://www.coursera.org/?skipBrowseRedirect=true"

/-- Load-time normalisation of one row:
`combined_features.fillna('').str.lower()` and
`course_url.fillna(fallbackUrl)`; all other columns pass through. -/
def normRow (r : RawRow) : Row :=
  { title := r.title, organization := r.organization, skills := r.skills,
    ratings := r.ratings, difficulty := r.difficulty, ctype := r.ctype,
    duration := r.duration,
    combined_features := lowerStr (r.combined_features.getD ""),
    course_url := r.course_url.getD fallbackUrl }

/-- The raw catalog: the loaded CSV.  `hasCombinedFeatures` records
whether the `combined_features` column (the one column whose presence
`app.py` checks, line 18) is present. -/
structure RawCatalog where
  hasCombinedFeatures : Bool
  rows : List RawRow
deriving DecidableEq, Repr

/-! ### Tokenizer and TF-IDF vectorizer

`TfidfVectorizer` lowercases its input and extracts tokens with the
default pattern `\b\w\w+\b`: maximal runs of word characters
(alphanumeric or underscore) of length at least 2. -/

def isWordChar (c : Char) : Bool := c.isAlphanum || c = '_'

/-- sklearn's default analyzer: lowercase, split on non-word characters,
keep tokens of length ≥ 2. -/
def tokenize (s : String) : List String :=
  (((lowerStr s).data.splitOnP (fun c => ! isWordChar c)).map
      (fun l => String.mk l)).filter (fun t => 2 ≤ t.length)

/-- Configuration of `TfidfVectorizer(stop_words='english')`.
`stopWords` stands for sklearn's built-in English stop-word frozenset
(external library data).  `idf d n` stands for the smoothed inverse
document frequency `ln((1+n)/(1+d)) + 1` of a term with document
frequency `d` in an `n`-document corpus; that value is irrational, so it
is carried as a parameter together with the one fact about it the
development uses, that it is nonnegative (indeed `idf ≥ 1` since
`d ≤ n`). -/
structure TfidfConfig where
  stopWords : List String
  idf : ℕ → ℕ → ℚ
  idf_nonneg : ∀ d n, 0 ≤ idf d n

/-- The engine state built at startup: the vectorizer configuration and
the normalised catalog.  The fitted vocabulary, the TF-IDF matrix and
the nearest-neighbor structure are all derived from these. -/
structure Engine where
  cfg : TfidfConfig
  rows : List Row

namespace Engine

/-- Corpus handed to `fit_transform`: the `combined_features` column. -/
def corpus (e : Engine) : List String := e.rows.map (·.combined_features)

/-- Number of catalog rows (`n_samples_fit`). -/
def n (e : Engine) : ℕ := e.rows.length

/-- Fitted vocabulary: the distinct non-stop-word tokens of the corpus,
in sorted order (sklearn sorts its vocabulary alphabetically). -/
def fitVocab (e : Engine) : List String :=
  List.insertionSort (· ≤ ·)
    (((e.corpus.flatMap tokenize).dedup).filter (fun t => t ∉ e.cfg.stopWords))

/-- Document frequency of a term: the number of corpus documents whose
token list contains it. -/
def docFreq (e : Engine) (t : String) : ℕ :=
  (e.corpus.filter (fun d => t ∈ tokenize d)).length

/-- TF-IDF weight vector of row `i` (zero outside the corpus), as a
function on terms; entries outside the fitted vocabulary are zero. -/
def rowVec (e : Engine) (i : ℕ) : String → ℚ :=
  match e.rows[i]? with
  | some r => fun t =>
      if t ∈ e.fitVocab then
        ((tokenize r.combined_features).count t : ℚ) * e.cfg.idf (e.docFreq t) e.n
      else 0
  | none => fun _ => 0

/-- `vectorizer.transform([query])`: term counts of the query weighted
by the fitted idf table; terms unseen at fit time contribute zero. -/
def transform (e : Engine) (q : String) : String → ℚ := fun t =>
  if t ∈ e.fitVocab then
    ((tokenize q).count t : ℚ) * e.cfg.idf (e.docFreq t) e.n
  else 0

/-- Dot product of two term-weight vectors over the fitted vocabulary. -/
def dotV (e : Engine) (x y : String → ℚ) : ℚ :=
  (e.fitVocab.map (fun t => x t * y t)).sum

/-- Squared L2 norm of a term-weight vector. -/
def normSq (e : Engine) (x : String → ℚ) : ℚ := e.dotV x x

/-- Decides `cosDist q x ≤ cosDist q y` over ℚ.  Cosine distance is
`1 - ⟨q,x⟩/(‖q‖‖x‖)` with the sklearn convention that a zero vector has
similarity 0 (distance 1); the square roots cancel out of every
comparison, leaving the cross-multiplied-squares tests below
(`distLE_iff_cosDistR` proves the correspondence). -/
def distLE (e : Engine) (q x y : String → ℚ) : Bool :=
  if e.normSq q = 0 ∨ e.normSq x = 0 then
    (if e.normSq q = 0 ∨ e.normSq y = 0 then true else decide (e.dotV q y ≤ 0))
  else
    (if e.normSq y = 0 then decide (0 ≤ e.dotV q x)
     else decide ((e.dotV q y) ^ 2 * e.normSq x ≤ (e.dotV q x) ^ 2 * e.normSq y))

/-- Cosine distance between term-weight vectors, as sklearn's
`metric='cosine'` computes it: `1 - ⟨x,y⟩/(‖x‖‖y‖)`, with a zero vector
given similarity 0 (so distance 1). -/
noncomputable def cosDistR (e : Engine) (x y : String → ℚ) : ℝ :=
  if e.normSq x = 0 ∨ e.normSq y = 0 then 1
  else 1 - (e.dotV x y : ℝ) / (Real.sqrt (e.normSq x) * Real.sqrt (e.normSq y))

/-- Comparison relation on row indices used by the neighbor search:
row `i` is at most as far from the query vector `qv` as row `j`. -/
def distRel (e : Engine) (qv : String → ℚ) : ℕ → ℕ → Prop :=
  fun i j => distLE e qv (e.rowVec i) (e.rowVec j) = true

instance (e : Engine) (qv : String → ℚ) : DecidableRel (e.distRel qv) :=
  fun i j =>
    inferInstanceAs (Decidable (distLE e qv (e.rowVec i) (e.rowVec j) = true))

/-- `model.kneighbors(query_vector)` with `n_neighbors=5`: raises
`ValueError` when the fitted corpus has fewer than 5 rows, otherwise
returns the indices of the 5 nearest rows, ascending by cosine distance
(ties resolved stably, in catalog order).  Only the index array is
modelled; `recommend_courses` discards the distance array. -/
def kneighborsIdx (e : Engine) (qv : String → ℚ) : Except String (List ℕ) :=
  if e.rows.length < 5 then
    .error "Expected n_neighbors <= n_samples_fit, but n_neighbors = 5"
  else
    .ok ((List.insertionSort (e.distRel qv) (List.range e.rows.length)).take 5)

/-- The candidate records produced by the retrieval step:
`df.iloc[indices[0]]` projected to the eight display columns. -/
def candidates (e : Engine) (idxs : List ℕ) : List CourseRec :=
  idxs.filterMap (fun i => (e.rows[i]?).map project)

end Engine

/-- Difficulty filter (line 41–42 of `app.py`):
`if difficulty and difficulty != 'All':` — a Python `None` or empty
string is falsy, so filtering happens only for a nonempty string other
than `'All'`; the pandas mask `Difficulty == difficulty` is `False` on
missing (NaN) difficulties. -/
def difficultyFilter (difficulty : Option String) (l : List CourseRec) : List CourseRec :=
  match difficulty with
  | none => l
  | some s =>
      if s ≠ "" ∧ s ≠ "All" then l.filter (fun r => r.difficulty = some s) else l

/-- Rating filter (line 43 of `app.py`): the pandas mask
`Ratings >= min_rating` is `False` on missing (NaN) ratings. -/
def ratingFilter (min_rating : ℚ) (l : List CourseRec) : List CourseRec :=
  l.filter (fun r => match r.ratings with
    | some x => decide (min_rating ≤ x)
    | none => false)

/-- `recommend_courses(query, difficulty=None, min_rating=0)`
(lines 34–45 of `app.py`): transform the query, query the
nearest-neighbor structure, project to the display columns, then apply
the difficulty filter followed by the rating filter. -/
def recommend_courses (e : Engine) (query : String) (difficulty : Option String)
    (min_rating : ℚ) : Except String (List CourseRec) :=
  match e.kneighborsIdx (e.transform query) with
  | .error msg => .error msg
  | .ok idxs =>
      .ok (ratingFilter min_rating (difficultyFilter difficulty (e.candidates idxs)))

namespace Engine

lemma normSq_nonneg (e : Engine) (x : String → ℚ) : 0 ≤ e.normSq x := by
  unfold normSq dotV
  apply List.sum_nonneg
  intro a ha
  simp only [List.mem_map] at ha
  obtain ⟨t, _, rfl⟩ := ha
  exact mul_self_nonneg _

lemma dotV_nonneg (e : Engine) {x y : String → ℚ}
    (hx : ∀ t, 0 ≤ x t) (hy : ∀ t, 0 ≤ y t) : 0 ≤ e.dotV x y := by
  unfold dotV
  apply List.sum_nonneg
  intro a ha
  simp only [List.mem_map] at ha
  obtain ⟨t, _, rfl⟩ := ha
  exact mul_nonneg (hx t) (hy t)

lemma rowVec_nonneg (e : Engine) (i : ℕ) (t : String) : 0 ≤ e.rowVec i t := by
  unfold rowVec
  cases h : e.rows[i]? with
  | none => exact le_refl 0
  | some r =>
      dsimp only
      split
      · exact mul_nonneg (by positivity) (e.cfg.idf_nonneg _ _)
      · exact le_refl 0

lemma transform_nonneg (e : Engine) (q : String) (t : String) :
    0 ≤ e.transform q t := by
  unfold transform
  split
  · exact mul_nonneg (by positivity) (e.cfg.idf_nonneg _ _)
  · exact le_refl 0

/-- The rational comparator `distLE` decides exactly the real
cosine-distance order, for vectors with nonnegative dot products against
the query (TF-IDF vectors are entrywise nonnegative). -/
lemma distLE_iff_cosDistR (e : Engine) {q x y : String → ℚ}
    (hx : 0 ≤ e.dotV q x) (hy : 0 ≤ e.dotV q y) :
    distLE e q x y = true ↔ e.cosDistR q x ≤ e.cosDistR q y := by
  unfold distLE cosDistR
  by_cases hA : e.normSq q = 0 ∨ e.normSq x = 0
  · by_cases hB : e.normSq q = 0 ∨ e.normSq y = 0
    · simp [hA, hB]
    · push_neg at hB
      obtain ⟨ha, hc⟩ := hB
      have hpa : (0:ℝ) < Real.sqrt (e.normSq q) := by
        rw [Real.sqrt_pos]
        exact_mod_cast lt_of_le_of_ne (e.normSq_nonneg q) (Ne.symm ha)
      have hpc : (0:ℝ) < Real.sqrt (e.normSq y) := by
        rw [Real.sqrt_pos]
        exact_mod_cast lt_of_le_of_ne (e.normSq_nonneg y) (Ne.symm hc)
      have hd : (0:ℝ) < Real.sqrt (e.normSq q) * Real.sqrt (e.normSq y) :=
        mul_pos hpa hpc
      rw [if_pos hA, if_neg (by push_neg; exact ⟨ha, hc⟩), if_pos hA,
        if_neg (by push_neg; exact ⟨ha, hc⟩)]
      simp only [decide_eq_true_eq]
      rw [le_sub_iff_add_le, add_le_iff_nonpos_right, div_nonpos_iff]
      constructor
      · intro h
        exact Or.inr ⟨by exact_mod_cast h, hd.le⟩
      · rintro (⟨-, h2⟩ | ⟨h1, -⟩)
        · exact absurd h2 (not_le.mpr hd)
        · exact_mod_cast h1
  · push_neg at hA
    obtain ⟨ha, hb⟩ := hA
    have hpa : (0:ℝ) < Real.sqrt (e.normSq q) := by
      rw [Real.sqrt_pos]
      exact_mod_cast lt_of_le_of_ne (e.normSq_nonneg q) (Ne.symm ha)
    have hpb : (0:ℝ) < Real.sqrt (e.normSq x) := by
      rw [Real.sqrt_pos]
      exact_mod_cast lt_of_le_of_ne (e.normSq_nonneg x) (Ne.symm hb)
    rw [if_neg (by push_neg; exact ⟨ha, hb⟩)]
    by_cases hc0 : e.normSq y = 0
    · rw [if_pos hc0, if_neg (by push_neg; exact ⟨ha, hb⟩), if_pos (Or.inr hc0)]
      simp only [decide_eq_true_eq]
      rw [sub_le_self_iff, le_div_iff₀ (mul_pos hpa hpb), zero_mul]
      exact Iff.symm Rat.cast_nonneg
    · have hpc : (0:ℝ) < Real.sqrt (e.normSq y) := by
        rw [Real.sqrt_pos]
        exact_mod_cast lt_of_le_of_ne (e.normSq_nonneg y) (Ne.symm hc0)
      rw [if_neg hc0, if_neg (by push_neg; exact ⟨ha, hb⟩),
        if_neg (by push_neg; exact ⟨ha, hc0⟩)]
      simp only [decide_eq_true_eq]
      rw [sub_le_sub_iff_left, div_mul_eq_div_div_swap, div_mul_eq_div_div_swap,
        div_le_div_iff_of_pos_right hpa, div_le_div_iff₀ hpc hpb]
      have hyb : (0:ℝ) ≤ (e.dotV q y : ℝ) * Real.sqrt (e.normSq x) :=
        mul_nonneg (by exact_mod_cast hy) hpb.le
      have hxc : (0:ℝ) ≤ (e.dotV q x : ℝ) * Real.sqrt (e.normSq y) :=
        mul_nonneg (by exact_mod_cast hx) hpc.le
      rw [← pow_le_pow_iff_left₀ hyb hxc two_ne_zero, mul_pow, mul_pow,
        Real.sq_sqrt (by exact_mod_cast e.normSq_nonneg x),
        Real.sq_sqrt (by exact_mod_cast e.normSq_nonneg y)]
      constructor
      · intro h
        exact_mod_cast h
      · intro h
        exact_mod_cast h

lemma dotV_q_rowVec_nonneg (e : Engine) {qv : String → ℚ}
    (hq : ∀ t, 0 ≤ qv t) (i : ℕ) : 0 ≤ e.dotV qv (e.rowVec i) :=
  e.dotV_nonneg hq (e.rowVec_nonneg i)

lemma distRel_total (e : Engine) {qv : String → ℚ} (hq : ∀ t, 0 ≤ qv t)
    (i j : ℕ) : e.distRel qv i j ∨ e.distRel qv j i := by
  unfold distRel
  rw [e.distLE_iff_cosDistR (e.dotV_q_rowVec_nonneg hq i) (e.dotV_q_rowVec_nonneg hq j),
    e.distLE_iff_cosDistR (e.dotV_q_rowVec_nonneg hq j) (e.dotV_q_rowVec_nonneg hq i)]
  exact le_total _ _

lemma distRel_trans (e : Engine) {qv : String → ℚ} (hq : ∀ t, 0 ≤ qv t)
    {i j k : ℕ} (h1 : e.distRel qv i j) (h2 : e.distRel qv j k) :
    e.distRel qv i k := by
  unfold distRel at *
  rw [e.distLE_iff_cosDistR (e.dotV_q_rowVec_nonneg hq i)
    (e.dotV_q_rowVec_nonneg hq j)] at h1
  rw [e.distLE_iff_cosDistR (e.dotV_q_rowVec_nonneg hq j)
    (e.dotV_q_rowVec_nonneg hq k)] at h2
  rw [e.distLE_iff_cosDistR (e.dotV_q_rowVec_nonneg hq i)
    (e.dotV_q_rowVec_nonneg hq k)]
  exact le_trans h1 h2

end Engine

/-- Diagnostic shown by `st.error` when the `combined_features` column is
missing (line 19 of `app.py`). -/
def missingColumnMsg : String :=
  "Error: 'combined_features' column is missing in the dataset."

/-- Startup (lines 18–31 of `app.py`): check for the
`combined_features` column (missing → the `st.error` diagnostic is shown
and the script aborts at `fit_transform` with a `KeyError`, so no index
is built), normalise the rows, fit the vectorizer
(`fit_transform` raises `ValueError` on an empty vocabulary), and fit
the nearest-neighbor structure. -/
def initEngine (cfg : TfidfConfig) (cat : RawCatalog) : Except String Engine :=
  if cat.hasCombinedFeatures then
    if (Engine.mk cfg (cat.rows.map normRow)).fitVocab = [] then
      .error "empty vocabulary; perhaps the documents only contain stop words"
    else .ok (Engine.mk cfg (cat.rows.map normRow))
  else .error missingColumnMsg

/-- State-threading form of `recommend_courses`.  Every operation the
Python function performs — `vectorizer.transform`, `model.kneighbors`,
`DataFrame.iloc` row selection, boolean-mask filtering — allocates fresh
objects and leaves `df`, the fitted vectorizer and the fitted
nearest-neighbor model untouched, so the engine state passes through the
call unchanged. -/
def recommendCoursesSt (e : Engine) (query : String) (difficulty : Option String)
    (min_rating : ℚ) : Except String (List CourseRec) × Engine :=
  (recommend_courses e query difficulty min_rating, e)

/-! ### Helper lemmas -/

lemma difficultyFilter_sublist (d : Option String) (l : List CourseRec) :
    (difficultyFilter d l).Sublist l := by
  cases d with
  | none => exact List.Sublist.refl l
  | some s =>
      unfold difficultyFilter
      dsimp only
      by_cases hs : s ≠ "" ∧ s ≠ "All"
      · rw [if_pos hs]; exact List.filter_sublist l
      · rw [if_neg hs]

lemma ratingFilter_sublist (m : ℚ) (l : List CourseRec) :
    (ratingFilter m l).Sublist l :=
  List.filter_sublist l

/-- Successful `recommend_courses` runs decompose into a successful
neighbor query followed by the two filters. -/
lemma recommend_courses_ok (e : Engine) (q : String) (d : Option String) (m : ℚ)
    (res : List CourseRec) (hres : recommend_courses e q d m = .ok res) :
    ∃ idxs, e.kneighborsIdx (e.transform q) = .ok idxs ∧
      res = ratingFilter m (difficultyFilter d (e.candidates idxs)) := by
  unfold recommend_courses at hres
  cases hk : e.kneighborsIdx (e.transform q) with
  | error msg => rw [hk] at hres; cases hres
  | ok idxs => rw [hk] at hres; cases hres; exact ⟨idxs, rfl, rfl⟩

lemma kneighborsIdx_ok (e : Engine) (qv : String → ℚ) (idxs : List ℕ)
    (h : e.kneighborsIdx qv = .ok idxs) :
    ¬ e.rows.length < 5 ∧
      idxs = (List.insertionSort (e.distRel qv) (List.range e.rows.length)).take 5 := by
  unfold Engine.kneighborsIdx at h
  by_cases hn : e.rows.length < 5
  · rw [if_pos hn] at h; cases h
  · rw [if_neg hn] at h; cases h; exact ⟨hn, rfl⟩

lemma mem_candidates_mem_rows (e : Engine) (idxs : List ℕ) (r : CourseRec)
    (hr : r ∈ e.candidates idxs) : r ∈ e.rows.map project := by
  unfold Engine.candidates at hr
  obtain ⟨i, _, hmap⟩ := List.mem_filterMap.mp hr
  obtain ⟨row, hrow, hpr⟩ := Option.map_eq_some'.mp hmap
  exact hpr ▸ List.mem_map_of_mem project (List.getElem?_mem hrow)

lemma recommend_mem_rows (e : Engine) (q : String) (d : Option String) (m : ℚ)
    (res : List CourseRec) (hres : recommend_courses e q d m = .ok res) :
    ∀ r ∈ res, r ∈ e.rows.map project := by
  obtain ⟨idxs, _, hdecomp⟩ := recommend_courses_ok e q d m res hres
  intro r hr
  subst hdecomp
  exact mem_candidates_mem_rows e idxs r
    (((ratingFilter_sublist _ _).trans (difficultyFilter_sublist _ _)).subset hr)

lemma candidates_length (e : Engine) (idxs : List ℕ)
    (h : ∀ i ∈ idxs, i < e.rows.length) :
    (e.candidates idxs).length = idxs.length := by
  induction idxs with
  | nil => rfl
  | cons i tl ih =>
      have hi : i < e.rows.length := h i (List.mem_cons_self i tl)
      unfold Engine.candidates at ih ⊢
      simp only [List.filterMap_cons, List.getElem?_eq_getElem hi, Option.map_some,
        Option.map_some', List.length_cons]
      rw [ih (fun j hj => h j (List.mem_cons_of_mem i hj))]

lemma pairwise_of_total_rel {R : ℕ → ℕ → Prop} (h : ∀ i j, R i j) :
    ∀ l : List ℕ, l.Pairwise R := by
  intro l
  induction l with
  | nil => exact List.Pairwise.nil
  | cons a tl ih => exact List.Pairwise.cons (fun b _ => h a b) ih

/-! ### Concrete fixtures used by witnesses and counterexamples -/

/-- Vectorizer configuration with the idf table instantiated at the
constant 1 and an empty stop list, used for concrete evaluations. -/
def testCfg : TfidfConfig :=
  { stopWords := [], idf := fun _ _ => 1, idf_nonneg := fun _ _ => zero_le_one }

def mkRaw (title cf : String) (rating : Option ℚ) (diff : Option String) : RawRow :=
  { title := title, organization := "org", skills := "skills", ratings := rating,
    difficulty := diff, ctype := "Course", duration := 1,
    combined_features := some cf, course_url := none }

def rawA : RawRow := mkRaw "A" "python basics" (some 4) (some "Beginner")
def rawB : RawRow := mkRaw "B" "advanced machine learning" (some 4) (some "Advanced")
def rawC : RawRow := mkRaw "C" "intro python" none (some "Beginner")
def rawD : RawRow := mkRaw "D" "data science" (some 3) (some "Intermediate")
def rawE : RawRow := mkRaw "E" "web development" (some 5) (some "Advanced")

/-- Concrete five-row catalog; row `C` has a missing (NaN) rating. -/
def rawCat5 : RawCatalog :=
  { hasCombinedFeatures := true, rows := [rawA, rawB, rawC, rawD, rawE] }

/-- Engine built from `rawCat5`. -/
def engA : Engine := { cfg := testCfg, rows := rawCat5.rows.map normRow }

def recA : CourseRec := project (normRow rawA)
def recB : CourseRec := project (normRow rawB)
def recC : CourseRec := project (normRow rawC)
def recD : CourseRec := project (normRow rawD)
def recE : CourseRec := project (normRow rawE)

/-- Concrete three-row catalog (smaller than the neighbor cap 5). -/
def rawCat3 : RawCatalog :=
  { hasCombinedFeatures := true, rows := [rawA, rawB, rawD] }

/-- Engine built from `rawCat3`. -/
def eng3 : Engine := { cfg := testCfg, rows := rawCat3.rows.map normRow }

/-- Raw catalog whose `combined_features` column is missing. -/
def rawCatNoCol : RawCatalog := { hasCombinedFeatures := false, rows := [rawA] }

/-! ### Claims -/

/-- C1: for every non-empty query string, the retrieval step of
`recommend_courses` returns at most 5 records, each of which is a row of
the loaded catalog, and the retrieved indices are ordered by
non-decreasing cosine distance from the query vector (nearest first). -/
theorem C1_retrieval_capped_catalog_sorted (e : Engine) (q : String)
    (_hq : q ≠ "") (idxs : List ℕ)
    (hok : e.kneighborsIdx (e.transform q) = .ok idxs) :
    (e.candidates idxs).length ≤ 5 ∧
    (∀ r ∈ e.candidates idxs, r ∈ e.rows.map project) ∧
    idxs.Pairwise (fun i j =>
      e.cosDistR (e.transform q) (e.rowVec i) ≤
        e.cosDistR (e.transform q) (e.rowVec j)) := by
  obtain ⟨-, hidxs⟩ := kneighborsIdx_ok e (e.transform q) idxs hok
  refine ⟨?_, ?_, ?_⟩
  · calc (e.candidates idxs).length ≤ idxs.length := List.length_filterMap_le _ _
      _ ≤ 5 := by
          rw [hidxs, List.length_take]
          exact min_le_left _ _
  · exact fun r hr => mem_candidates_mem_rows e idxs r hr
  · have hq0 : ∀ t, 0 ≤ e.transform q t := e.transform_nonneg q
    haveI : IsTotal ℕ (e.distRel (e.transform q)) := ⟨e.distRel_total hq0⟩
    haveI : IsTrans ℕ (e.distRel (e.transform q)) :=
      ⟨fun _ _ _ h1 h2 => e.distRel_trans hq0 h1 h2⟩
    have hs : List.Pairwise (e.distRel (e.transform q))
        ((List.insertionSort (e.distRel (e.transform q))
          (List.range e.rows.length)).take 5) :=
      List.Pairwise.sublist (List.take_sublist _ _)
        (List.sorted_insertionSort (e.distRel (e.transform q))
          (List.range e.rows.length))
    rw [hidxs]
    exact hs.imp (fun hij => (e.distLE_iff_cosDistR
      (e.dotV_q_rowVec_nonneg hq0 _) (e.dotV_q_rowVec_nonneg hq0 _)).mp hij)

/-- Witness for C1 at the concrete engine `engA` and query `"python"`. -/
theorem C1_witness :
    (engA.candidates [0, 2, 1, 3, 4]).length ≤ 5 ∧
    List.Pairwise (fun i j =>
      engA.cosDistR (engA.transform "python") (engA.rowVec i) ≤
        engA.cosDistR (engA.transform "python") (engA.rowVec j))
      [0, 2, 1, 3, 4] :=
  ⟨(C1_retrieval_capped_catalog_sorted engA "python" (by decide) [0, 2, 1, 3, 4]
      (by with_unfolding_all rfl)).1,
   (C1_retrieval_capped_catalog_sorted engA "python" (by decide) [0, 2, 1, 3, 4]
      (by with_unfolding_all rfl)).2.2⟩

/-- C2: for every query and every difficulty/minimum-rating choice, the
filtered output of `recommend_courses` is a subsequence of the
unfiltered ranked candidate list: a subset, with relative order
unchanged. -/
theorem C2_filtered_output_subsequence (e : Engine) (q : String)
    (d : Option String) (m : ℚ) (idxs : List ℕ) (res : List CourseRec)
    (hok : e.kneighborsIdx (e.transform q) = .ok idxs)
    (hres : recommend_courses e q d m = .ok res) :
    res.Sublist (e.candidates idxs) ∧ ∀ r ∈ res, r ∈ e.candidates idxs := by
  obtain ⟨idxs2, hok2, hdecomp⟩ := recommend_courses_ok e q d m res hres
  rw [hok] at hok2
  injection hok2 with h2
  subst h2
  subst hdecomp
  refine ⟨?_, ?_⟩
  · exact (ratingFilter_sublist _ _).trans (difficultyFilter_sublist _ _)
  · exact fun r hr =>
      ((ratingFilter_sublist _ _).trans (difficultyFilter_sublist _ _)).subset hr

/-- Witness for C2 at the concrete engine `engA`, query `"python"`,
no difficulty filter, minimum rating 0. -/
theorem C2_witness :
    [recA, recB, recD, recE].Sublist (engA.candidates [0, 2, 1, 3, 4]) :=
  (C2_filtered_output_subsequence engA "python" none 0 [0, 2, 1, 3, 4]
    [recA, recB, recD, recE] (by with_unfolding_all rfl)
    (by with_unfolding_all rfl)).1

/-- C5: a `recommend_courses` call is deterministic and side-effect
free — the engine state (catalog, fitted vocabulary, neighbor index)
passes through unchanged, and repeating the call on the resulting state
returns the identical ordered output. -/
theorem C5_idempotent_and_pure (e : Engine) (q : String) (d : Option String)
    (m : ℚ) :
    (recommendCoursesSt e q d m).2 = e ∧
    (recommendCoursesSt (recommendCoursesSt e q d m).2 q d m).1 =
      (recommendCoursesSt e q d m).1 :=
  ⟨rfl, rfl⟩

/-- C9: a catalog item with a missing (NaN) rating is never part of the
output of `recommend_courses`, whatever the threshold, because the
pandas comparison `Ratings >= min_rating` is false on NaN. -/
theorem C9_nan_rating_never_included (e : Engine) (q : String)
    (d : Option String) (m : ℚ) (res : List CourseRec)
    (hres : recommend_courses e q d m = .ok res) :
    ∀ r ∈ res, r.ratings ≠ none := by
  obtain ⟨idxs, -, hdecomp⟩ := recommend_courses_ok e q d m res hres
  subst hdecomp
  intro r hr hnone
  unfold ratingFilter at hr
  have hkeep := (List.mem_filter.mp hr).2
  rw [hnone] at hkeep
  exact Bool.false_ne_true hkeep

/-- Witness for C9: the concrete run on `engA` with default threshold 0
returns `recA`, whose rating is present. -/
theorem C9_witness : recA.ratings ≠ none :=
  C9_nan_rating_never_included engA "python" none 0 [recA, recB, recD, recE]
    (by with_unfolding_all rfl) recA (List.Mem.head _)

/-- Error message sklearn raises when the fitted corpus is smaller than
`n_neighbors`. -/
def smallCorpusMsg : String :=
  "Expected n_neighbors <= n_samples_fit, but n_neighbors = 5"

/-- Counterexample to C3 as stated: on a three-row catalog the query
step does not cap at the corpus size — it raises
(`kneighbors` refuses `n_neighbors=5 > n_samples_fit=3`), so the whole
`recommend_courses` call errors. -/
theorem C3_counterexample :
    eng3.rows.length = 3 ∧
    recommend_courses eng3 "python" none 0 = .error smallCorpusMsg :=
  ⟨by with_unfolding_all rfl, by with_unfolding_all rfl⟩

/-- C3 amended: when the catalog has fewer rows than the neighbor count
5, the vector-space query step errors with sklearn's
`n_neighbors <= n_samples_fit` diagnostic instead of capping the
ranking at the corpus size. -/
theorem C3_amended_small_corpus_errors (e : Engine) (qv : String → ℚ)
    (h : e.rows.length < 5) :
    e.kneighborsIdx qv = .error smallCorpusMsg := by
  unfold Engine.kneighborsIdx
  rw [if_pos h]
  rfl

/-- Witness for the amended C3 on the three-row engine `eng3`. -/
theorem C3_witness :
    eng3.kneighborsIdx (eng3.transform "python") = .error smallCorpusMsg :=
  C3_amended_small_corpus_errors eng3 (eng3.transform "python")
    (by with_unfolding_all decide)

/-- Inclusion predicate exactly as claim C4 states it: keep a candidate
iff (the difficulty filter is absent (`none`) or equal to `"All"`, or
the item's difficulty equals the filter value exactly) and the item's
rating is present and at least the threshold. -/
def claimC4Keep (d : Option String) (m : ℚ) (r : CourseRec) : Bool :=
  (match d with
   | none => true
   | some s => decide (s = "All") || decide (r.difficulty = some s)) &&
  (match r.ratings with
   | some x => decide (m ≤ x)
   | none => false)

/-- Inclusion predicate as amended: a Python empty string is falsy, so
`difficulty = ""` also disables the categorical filter, exactly like
`None` and `"All"`. -/
def amendedC4Keep (d : Option String) (m : ℚ) (r : CourseRec) : Bool :=
  (match d with
   | none => true
   | some s => decide (s = "") || decide (s = "All") ||
       decide (r.difficulty = some s)) &&
  (match r.ratings with
   | some x => decide (m ≤ x)
   | none => false)

/-- Counterexample to C4 as stated: with the empty-string difficulty
filter, `recA` (difficulty `"Beginner"`, rating 4) is kept by the code's
filter step although the claimed inclusion predicate rejects it (the
empty string is neither `none` nor `"All"` nor equal to the item's
difficulty). -/
theorem C4_counterexample :
    ratingFilter 0 (difficultyFilter (some "") [recA]) = [recA] ∧
    claimC4Keep (some "") 0 recA = false ∧
    recommend_courses engA "python" (some "") 0 =
      .ok [recA, recB, recD, recE] :=
  ⟨by with_unfolding_all rfl, by with_unfolding_all rfl,
   by with_unfolding_all rfl⟩

/-- C4 amended: the filter step keeps a candidate iff (the difficulty
filter is `none`, the empty string, or `"All"`, or the item's difficulty
equals the filter value exactly, case-sensitively) and the item's rating
is present and at least the threshold; the categorical filter runs
before the rating filter. -/
theorem C4_amended_filter_characterisation (d : Option String) (m : ℚ)
    (l : List CourseRec) :
    ratingFilter m (difficultyFilter d l) = l.filter (amendedC4Keep d m) := by
  cases d with
  | none =>
      unfold difficultyFilter ratingFilter
      dsimp only
      apply List.filter_congr
      intro r _
      unfold amendedC4Keep
      cases hrat : r.ratings <;> simp [hrat]
  | some s =>
      by_cases hs : s ≠ "" ∧ s ≠ "All"
      · unfold difficultyFilter ratingFilter
        dsimp only
        rw [if_pos hs, List.filter_filter]
        apply List.filter_congr
        intro r _
        unfold amendedC4Keep
        cases hrat : r.ratings <;>
          simp [hrat, hs.1, hs.2, Bool.and_comm]
      · have hor : s = "" ∨ s = "All" := by
          rcases not_and_or.mp hs with h | h
          · exact Or.inl (not_not.mp h)
          · exact Or.inr (not_not.mp h)
        unfold difficultyFilter ratingFilter
        dsimp only
        rw [if_neg hs]
        apply List.filter_congr
        intro r _
        unfold amendedC4Keep
        rcases hor with rfl | rfl <;> cases hrat : r.ratings <;> simp [hrat]

/-- Counterexample to C7 as stated: with a negative threshold, not
every candidate passes the rating filter — the NaN-rated candidate
`recC` is among the five retrieved candidates but is dropped from the
output. -/
theorem C7_counterexample :
    engA.kneighborsIdx (engA.transform "python") = .ok [0, 2, 1, 3, 4] ∧
    engA.candidates [0, 2, 1, 3, 4] = [recA, recC, recB, recD, recE] ∧
    recommend_courses engA "python" none (-1) = .ok [recA, recB, recD, recE] ∧
    recC ∉ [recA, recB, recD, recE] :=
  ⟨by with_unfolding_all rfl, by with_unfolding_all rfl,
   by with_unfolding_all rfl, by with_unfolding_all decide⟩

/-- C7 amended: a negative minimum-rating threshold passes exactly the
candidates whose rating is present (NaN-rated candidates are still
excluded, ratings being nonnegative as in the catalog's [0,5] domain),
and a truthy difficulty value other than `"All"` that matches no
candidate yields an empty categorical-filter result; neither input
raises. -/
theorem C7_amended_negative_threshold_unknown_difficulty (m : ℚ) (s : String)
    (l : List CourseRec) :
    (m < 0 → (∀ r ∈ l, 0 ≤ r.ratings.getD 0) →
      ratingFilter m l = l.filter (fun r => r.ratings.isSome)) ∧
    (s ≠ "" → s ≠ "All" → (∀ r ∈ l, r.difficulty ≠ some s) →
      difficultyFilter (some s) l = []) := by
  constructor
  · intro hm hnn
    unfold ratingFilter
    apply List.filter_congr
    intro r hr
    cases hrat : r.ratings with
    | none => simp [hrat]
    | some x =>
        have hx : 0 ≤ x := by
          have hgd := hnn r hr
          rw [hrat] at hgd
          simpa using hgd
        simp [hrat, le_trans hm.le hx]
  · intro h1 h2 hmem
    unfold difficultyFilter
    dsimp only
    rw [if_pos ⟨h1, h2⟩]
    exact List.filter_eq_nil_iff.mpr (fun r hr => by simp [hmem r hr])

/-- Witness for the amended C7: threshold −1 on `[recA, recC]` keeps
exactly the present-rating candidate, and the unknown difficulty
`"Expert"` filters `[recA]` to empty. -/
theorem C7_witness :
    ratingFilter (-1) [recA, recC] =
      [recA, recC].filter (fun r => r.ratings.isSome) ∧
    difficultyFilter (some "Expert") [recA] = [] :=
  ⟨(C7_amended_negative_threshold_unknown_difficulty (-1) "Expert"
      [recA, recC]).1 (by norm_num) (by with_unfolding_all decide),
   (C7_amended_negative_threshold_unknown_difficulty (-1) "Expert" [recA]).2
      (by decide) (by decide) (by with_unfolding_all decide)⟩

/-- C6: when the loaded catalog lacks the `combined_features` column,
initialisation aborts with the `st.error` diagnostic and no engine (no
index) is ever produced, so no recommendation can be served. -/
theorem C6_missing_column_aborts (cfg : TfidfConfig) (cat : RawCatalog)
    (h : cat.hasCombinedFeatures = false) :
    initEngine cfg cat = .error missingColumnMsg ∧
    ∀ e : Engine, initEngine cfg cat ≠ .ok e := by
  have h1 : initEngine cfg cat = .error missingColumnMsg := by
    unfold initEngine
    rw [h]
    rfl
  exact ⟨h1, fun e he => by rw [h1] at he; cases he⟩

/-- Witness for C6 on the concrete column-less catalog. -/
theorem C6_witness : initEngine testCfg rawCatNoCol = .error missingColumnMsg :=
  (C6_missing_column_aborts testCfg rawCatNoCol rfl).1

/-- C8: load-time normalisation replaces a missing combined-text value
by the empty string and lowercases the field, replaces a missing
`course_url` by the non-empty fallback URL, and consequently every
record returned by `recommend_courses` carries a URL of the form
`raw.course_url.getD fallbackUrl` for some catalog row — never null. -/
theorem C8_load_time_substitutions (cfg : TfidfConfig) (cat : RawCatalog)
    (e : Engine) (hinit : initEngine cfg cat = .ok e) :
    e.rows = cat.rows.map normRow ∧
    (∀ raw : RawRow,
      (normRow raw).combined_features = lowerStr (raw.combined_features.getD "") ∧
      (normRow raw).course_url = raw.course_url.getD fallbackUrl ∧
      (raw.course_url = none → (normRow raw).course_url = fallbackUrl)) ∧
    fallbackUrl ≠ "" ∧
    (∀ q d m res, recommend_courses e q d m = .ok res →
      ∀ r ∈ res, ∃ raw ∈ cat.rows,
        r.course_url = raw.course_url.getD fallbackUrl) := by
  have hrows : e.rows = cat.rows.map normRow := by
    unfold initEngine at hinit
    by_cases hc : cat.hasCombinedFeatures = true
    · rw [if_pos hc] at hinit
      by_cases hv : (Engine.mk cfg (cat.rows.map normRow)).fitVocab = []
      · rw [if_pos hv] at hinit; cases hinit
      · rw [if_neg hv] at hinit; cases hinit; rfl
    · rw [if_neg hc] at hinit; cases hinit
  refine ⟨hrows, ?_, by decide, ?_⟩
  · intro raw
    refine ⟨rfl, rfl, fun hnone => ?_⟩
    unfold normRow
    rw [hnone]
    rfl
  · intro q d m res hres r hr
    have hmem := recommend_mem_rows e q d m res hres r hr
    rw [hrows, List.map_map] at hmem
    obtain ⟨raw, hraw, hpr⟩ := List.mem_map.mp hmem
    exact ⟨raw, hraw, by rw [← hpr]; rfl⟩

/-- Witness for C8 on the concrete catalog `rawCat5`. -/
theorem C8_witness :
    engA.rows = rawCat5.rows.map normRow ∧ fallbackUrl ≠ "" :=
  ⟨(C8_load_time_substitutions testCfg rawCat5 engA
      (by with_unfolding_all rfl)).1,
   (C8_load_time_substitutions testCfg rawCat5 engA
      (by with_unfolding_all rfl)).2.2.1⟩

/-- Counterexample to C10 as stated: on a catalog smaller than the
neighbor cap, `recommend_courses` raises even for the empty query, so
"does not raise" does not hold unconditionally. -/
theorem C10_counterexample :
    tokenize "" = [] ∧
    recommend_courses eng3 "" none 0 = .error smallCorpusMsg :=
  ⟨by with_unfolding_all rfl, by with_unfolding_all rfl⟩

/-- C10 amended: on a catalog with at least 5 rows, a query with no
in-vocabulary term (in particular the empty string) transforms to the
zero vector, and the neighbor step neither raises nor comes back empty:
it returns the first five catalog rows in index order (determined by
the index, not the query), which are then filtered normally. -/
theorem C10_empty_query_index_order (e : Engine) (q : String)
    (d : Option String) (m : ℚ) (hn : 5 ≤ e.rows.length)
    (hv : ∀ t ∈ tokenize q, t ∉ e.fitVocab) :
    (∀ t, e.transform q t = 0) ∧
    e.kneighborsIdx (e.transform q) = .ok (List.range 5) ∧
    e.candidates (List.range 5) ≠ [] ∧
    recommend_courses e q d m =
      .ok (ratingFilter m (difficultyFilter d (e.candidates (List.range 5)))) := by
  have hzero : ∀ t, e.transform q t = 0 := by
    intro t
    unfold Engine.transform
    by_cases ht : t ∈ e.fitVocab
    · rw [if_pos ht]
      have hc : (tokenize q).count t = 0 :=
        List.count_eq_zero.mpr (fun hc => hv t hc ht)
      rw [hc]
      simp
    · rw [if_neg ht]
  have hnormSq : e.normSq (e.transform q) = 0 := by
    unfold Engine.normSq Engine.dotV
    apply List.sum_eq_zero
    intro a ha
    obtain ⟨t, -, rfl⟩ := List.mem_map.mp ha
    rw [hzero t, zero_mul]
  have hrel : ∀ i j, e.distRel (e.transform q) i j := by
    intro i j
    unfold Engine.distRel Engine.distLE
    rw [if_pos (Or.inl hnormSq), if_pos (Or.inl hnormSq)]
  have hsorted : List.insertionSort (e.distRel (e.transform q))
      (List.range e.rows.length) = List.range e.rows.length :=
    List.Sorted.insertionSort_eq (pairwise_of_total_rel hrel _)
  have hks : e.kneighborsIdx (e.transform q) = .ok (List.range 5) := by
    unfold Engine.kneighborsIdx
    rw [if_neg (not_lt.mpr hn), hsorted, List.take_range, Nat.min_eq_left hn]
  refine ⟨hzero, hks, ?_, ?_⟩
  · have hb : ∀ i ∈ List.range 5, i < e.rows.length := by
      intro i hi
      have h5 : i < 5 := List.mem_range.mp hi
      omega
    have hlen := candidates_length e (List.range 5) hb
    rw [List.length_range] at hlen
    intro hnil
    rw [hnil] at hlen
    cases hlen
  · unfold recommend_courses
    rw [hks]

/-- Witness for C10: the empty query on the concrete engine `engA`. -/
theorem C10_witness :
    engA.kneighborsIdx (engA.transform "") = .ok (List.range 5) ∧
    engA.candidates (List.range 5) ≠ [] :=
  ⟨(C10_empty_query_index_order engA "" none 0 (by with_unfolding_all decide)
      (by with_unfolding_all decide)).2.1,
   (C10_empty_query_index_order engA "" none 0 (by with_unfolding_all decide)
      (by with_unfolding_all decide)).2.2.1⟩
